import Mathlib

/-!
Verification of the Effect workshop repository's core: the scoped `SqlClient`
resource (with `use`, `query`, `stream`) and the Express `addRoute` request
adapter (tracing span, `Effect.onExit` completion hook, disconnect-driven
interruption, and the FiberSet supervisor bound to the layer scope).

The definitions below are a shallow embedding of the TypeScript source.
Synchronous effectful computations over the connection state are modelled as
pure functions that return the spans they opened together with either a typed
error or a value and the updated state.
-/

namespace Spec2Proof

/-- An opaque native fault: a value thrown by the JavaScript backend. -/
abbrev Fault := String

/-- A loosely typed SQL value. -/
abbrev Value := String

/-- A result row, modelled as its list of column values. -/
abbrev Row := List Value

/-- The tagged error `SqlError` from the source: carries the original thrown
fault as its `cause` payload. -/
structure SqlError where
  cause : Fault
deriving DecidableEq, Repr

/-- Model of a prepared better-sqlite3 statement over database states `σ`.
`reader` says whether the statement returns rows; `all` materializes every
result row (`none` models `undefined`, guarded by `?? []` in the source);
`run` executes a mutation, updating the database state; `iterate` is the
sequence of cursor pulls, each yielding a row or throwing a native fault. -/
structure Stmt (σ : Type) where
  reader : Bool
  all : List Value → σ → Option (List Row)
  run : List Value → σ → σ
  iterate : List Value → σ → List (Except Fault Row)

/-- Model of the better-sqlite3 database handle: preparing a statement from
its SQL text may throw (for example on malformed SQL). -/
structure Backend (σ : Type) where
  prepare : String → σ → Except Fault (Stmt σ)

/-- A synchronous effectful computation over connection state `σ`: returns
the tracing spans it opened and either a typed error `ε` or a value `α` with
the updated state. -/
abbrev Eff (σ ε α : Type) := σ → List String × Except ε (α × σ)

/-- `Effect.withSpan` / `Stream.withSpan`: attach one named tracing span to a
computation. The span is descriptive metadata recorded alongside the result. -/
def withSpan {σ ε α : Type} (name : String) (e : Eff σ ε α) : Eff σ ε α :=
  fun s => (name :: (e s).1, (e s).2)

/-- The `use` operation of `SqlClient` (`Effect.fn("SqlClient.use")` over
`Effect.try`): runs the operation `f` against the live connection, opening
the span `SqlClient.use`; a value is returned as success and a thrown native
fault is caught and rewrapped as `SqlError` with the fault as its cause. -/
def use {σ α : Type} (f : σ → Except Fault (α × σ)) : Eff σ SqlError α :=
  fun s =>
    (["SqlClient.use"],
      match f s with
      | .ok pair => .ok pair
      | .error c => .error { cause := c })

/-- The operation `query` passes to `use`: prepare the statement; if it is a
reader, materialize all rows (`?? []` when the backend yields `undefined`);
otherwise run the mutation and return the empty list. -/
def queryF {σ : Type} (b : Backend σ) (sql : String) (params : List Value) :
    σ → Except Fault (List Row × σ) :=
  fun s =>
    match b.prepare sql s with
    | .error c => .error c
    | .ok stmt =>
        if stmt.reader then .ok ((stmt.all params s).getD [], s)
        else .ok ([], stmt.run params s)

/-- `SqlClient.query`: `use` over `queryF`, wrapped in the tracing span
`SqlClient.query` tagged with the statement text. -/
def query {σ : Type} (b : Backend σ) (sql : String) (params : List Value) :
    Eff σ SqlError (List Row) :=
  withSpan "SqlClient.query" (use (queryF b sql params))

/-- Claim C2: every operation `f` submitted through `use` either returns its
value, or fails with the single typed error `SqlError` carrying the original
thrown fault as its cause; no untyped fault crosses the resource boundary. -/
theorem c2_use_normalizes_faults {σ α : Type}
    (f : σ → Except Fault (α × σ)) (s : σ) :
    (∃ a s2, f s = .ok (a, s2) ∧ (use f s).2 = .ok (a, s2)) ∨
    (∃ c, f s = .error c ∧ (use f s).2 = .error { cause := c }) := by
  cases h : f s with
  | ok pair =>
      exact .inl ⟨pair.1, pair.2, by simp, by simp [use, h]⟩
  | error c =>
      exact .inr ⟨c, rfl, by simp [use, h]⟩

/-- Claim C3: for a statement that prepares successfully, `query` on a
reader (selection) statement returns exactly the backend's rows, eagerly
materialized in the backend's order, without changing the database state;
on a non-reader (mutation) statement it still executes the statement
(the state is updated by `run`) and returns the empty sequence, with the
same `List Row` result type in both cases. -/
theorem c3_query_rows_or_empty {σ : Type} (b : Backend σ) (sql : String)
    (params : List Value) (s : σ) (stmt : Stmt σ)
    (h : b.prepare sql s = .ok stmt) :
    (stmt.reader = true →
      (query b sql params s).2 = .ok ((stmt.all params s).getD [], s)) ∧
    (stmt.reader = false →
      (query b sql params s).2 = .ok ([], stmt.run params s)) := by
  constructor <;> intro hr <;> simp [query, withSpan, use, queryF, h, hr]

/-- A demonstration selection statement over a counter state. -/
def demoStmtSel : Stmt Nat where
  reader := true
  all := fun _ _ => some [["1", "Alice"], ["2", "Bob"]]
  run := fun _ s => s
  iterate := fun _ _ => [.ok ["1", "Alice"], .ok ["2", "Bob"]]

/-- A demonstration mutation statement over a counter state. -/
def demoStmtMut : Stmt Nat where
  reader := false
  all := fun _ _ => none
  run := fun _ s => s + 1
  iterate := fun _ _ => []

/-- A demonstration backend: `SELECT` prepares a selection, `INSERT` a
mutation, and anything else throws at prepare time. -/
def demoBackend : Backend Nat where
  prepare := fun sql _ =>
    if sql = "SELECT" then .ok demoStmtSel
    else if sql = "INSERT" then .ok demoStmtMut
    else .error "syntax error"

/-- Witness for C3 at the demonstration backend: the selection returns both
rows with the state untouched, the mutation returns no rows and bumps the
state. -/
theorem c3_query_rows_or_empty_witness :
    (query demoBackend "SELECT" [] 0).2 = .ok ([["1", "Alice"], ["2", "Bob"]], 0) ∧
    (query demoBackend "INSERT" [] 0).2 = .ok ([], 1) := by
  constructor
  · have h := (c3_query_rows_or_empty demoBackend "SELECT" [] 0 demoStmtSel rfl).1 rfl
    simpa [demoStmtSel] using h
  · have h := (c3_query_rows_or_empty demoBackend "INSERT" [] 0 demoStmtMut rfl).2 rfl
    simpa [demoStmtMut] using h

/-- The operation `stream` passes to `use`: prepare the statement and create
the cursor. Only this construction runs inside `Effect.try`; the pulls
themselves happen later, inside `Stream.fromIterable`, outside the try. -/
def streamF {σ : Type} (b : Backend σ) (sql : String) (params : List Value) :
    σ → Except Fault (List (Except Fault Row) × σ) :=
  fun s =>
    match b.prepare sql s with
    | .error c => .error c
    | .ok stmt => .ok (stmt.iterate params s, s)

/-- `SqlClient.stream`: the effect that opens the cursor (`use` over
`streamF`), wrapped in the span `SqlClient.stream`. `Stream.unwrap` defers
running this effect until the stream is consumed; its value is the sequence
of cursor pulls still to be performed. -/
def stream {σ : Type} (b : Backend σ) (sql : String) (params : List Value) :
    Eff σ SqlError (List (Except Fault Row)) :=
  withSpan "SqlClient.stream" (use (streamF b sql params))

/-- The outcome a stream consumer observes: the rows it received, then
either normal completion, a typed `SqlError` failure, or an untyped defect. -/
inductive RunOutcome (α : Type) where
  | success (rows : List α)
  | typedError (rows : List α) (e : SqlError)
  | defect (rows : List α) (c : Fault)
deriving DecidableEq, Repr

/-- Prepend a received row to a consumer outcome. -/
def RunOutcome.consRow {α : Type} (r : α) : RunOutcome α → RunOutcome α
  | .success rows => .success (r :: rows)
  | .typedError rows e => .typedError (r :: rows) e
  | .defect rows c => .defect (r :: rows) c

/-- Consume at most `k` rows from the cursor's pulls. `Stream.fromIterable`
emits each pulled row on demand; a fault thrown by a pull happens outside
`Effect.try`, so it propagates as an untyped defect, not as a typed error. -/
def consumePulls : Nat → List (Except Fault Row) → RunOutcome Row
  | 0, _ => .success []
  | _ + 1, [] => .success []
  | k + 1, .ok r :: rest => (consumePulls k rest).consRow r
  | _ + 1, .error c :: _ => .defect [] c

/-- Run a stream, taking at most `k` rows. Opening the cursor happens here,
at consumption time (`Stream.unwrap`); a typed error raised by the opening
effect surfaces as the stream's typed failure before any row is emitted. -/
def runStream {σ : Type} (st : Eff σ SqlError (List (Except Fault Row)))
    (s : σ) (k : Nat) : List String × RunOutcome Row :=
  ((st s).1,
    match (st s).2 with
    | .error e => .typedError [] e
    | .ok (pulls, _) => consumePulls k pulls)

/-- A statement whose cursor yields one row and then throws on the second
pull. -/
def pullFaultStmt : Stmt Nat where
  reader := true
  all := fun _ _ => some [["1", "Alice"]]
  run := fun _ s => s
  iterate := fun _ _ => [.ok ["1", "Alice"], .error "disk fault"]

/-- A backend whose only statement is `pullFaultStmt`. -/
def pullFaultBackend : Backend Nat where
  prepare := fun _ _ => .ok pullFaultStmt

/-- Claim C6 counterexample: over a cursor that throws while producing its
second row, consuming two rows ends in an untyped defect carrying the raw
fault, not in the typed `SqlError` the claim promises for every failure
raised while producing a row. -/
theorem c6_counterexample :
    (runStream (stream pullFaultBackend "SELECT * FROM users" []) 0 2).2 =
      .defect [["1", "Alice"]] "disk fault" := by
  rfl

/-- Consuming exactly the rows of an all-row prefix ignores every later
pull. -/
theorem consumePulls_takes_rows (rows : List Row)
    (rest : List (Except Fault Row)) :
    consumePulls rows.length (rows.map Except.ok ++ rest) = .success rows := by
  induction rows with
  | nil => rfl
  | cons r rows ih => simp [consumePulls, ih, RunOutcome.consRow]

/-- Consuming past a faulting pull yields a defect carrying the fault and
the rows received before it. -/
theorem consumePulls_fault (rows : List Row) (c : Fault)
    (rest : List (Except Fault Row)) (j : Nat) :
    consumePulls (rows.length + j + 1) (rows.map Except.ok ++ .error c :: rest) =
      .defect rows c := by
  induction rows with
  | nil => rfl
  | cons r rows ih =>
      simpa [consumePulls, List.cons_append, Nat.succ_add,
        RunOutcome.consRow] using congrArg (RunOutcome.consRow r) ih

/-- Claim C6 (amended): `stream` produces rows one at a time on demand — a
consumer that takes only rows occurring before any fault receives exactly
those rows with no error; a fault raised while opening the cursor (preparing
the statement) surfaces at the point of consumption as the typed `SqlError`
carrying the fault; but a fault raised while producing an individual row
surfaces as an untyped defect carrying the raw fault, not as `SqlError`. -/
theorem c6_stream_lazy_and_error_channels {σ : Type} (b : Backend σ)
    (sql : String) (params : List Value) (s : σ) :
    (∀ c, b.prepare sql s = .error c →
      ∀ k, (runStream (stream b sql params) s k).2 =
        .typedError [] { cause := c }) ∧
    (∀ stmt rows rest, b.prepare sql s = .ok stmt →
      stmt.iterate params s = rows.map Except.ok ++ rest →
      (runStream (stream b sql params) s rows.length).2 = .success rows) ∧
    (∀ stmt rows c rest, b.prepare sql s = .ok stmt →
      stmt.iterate params s = rows.map Except.ok ++ .error c :: rest →
      ∀ j, (runStream (stream b sql params) s (rows.length + j + 1)).2 =
        .defect rows c) := by
  refine ⟨fun c hc k => ?_, fun stmt rows rest hp hit => ?_,
    fun stmt rows c rest hp hit j => ?_⟩
  · simp [runStream, stream, withSpan, use, streamF, hc]
  · simp [runStream, stream, withSpan, use, streamF, hp, hit,
      consumePulls_takes_rows]
  · simp [runStream, stream, withSpan, use, streamF, hp, hit,
      consumePulls_fault]

/-- Witness for C6 (amended), at concrete backends: a prepare-time fault
surfaces as `SqlError`; taking one row from the faulting cursor succeeds
lazily; taking two reaches the defect. -/
theorem c6_stream_lazy_and_error_channels_witness :
    (runStream (stream demoBackend "DROP" []) 0 5).2 =
      .typedError [] { cause := "syntax error" } ∧
    (runStream (stream pullFaultBackend "SELECT * FROM users" []) 0 1).2 =
      .success [["1", "Alice"]] ∧
    (runStream (stream pullFaultBackend "SELECT * FROM users" []) 0 2).2 =
      .defect [["1", "Alice"]] "disk fault" := by
  refine ⟨(c6_stream_lazy_and_error_channels demoBackend "DROP" [] 0).1
      "syntax error" rfl 5, ?_, ?_⟩
  · have h := (c6_stream_lazy_and_error_channels pullFaultBackend
      "SELECT * FROM users" [] 0).2.1 pullFaultStmt [["1", "Alice"]]
      [.error "disk fault"] rfl rfl
    simpa using h
  · have h := (c6_stream_lazy_and_error_channels pullFaultBackend
      "SELECT * FROM users" [] 0).2.2 pullFaultStmt [["1", "Alice"]]
      "disk fault" [] rfl rfl 0
    simpa using h

/-- Modelled from the spec: `query` with the span wrapper removed, for the
refinement comparison — the spec says the span is descriptive metadata only
and must not alter result semantics. -/
def queryNoSpan {σ : Type} (b : Backend σ) (sql : String)
    (params : List Value) : Eff σ SqlError (List Row) :=
  use (queryF b sql params)

/-- Modelled from the spec: `stream` with the span wrapper removed, for the
refinement comparison. -/
def streamNoSpan {σ : Type} (b : Backend σ) (sql : String)
    (params : List Value) : Eff σ SqlError (List (Except Fault Row)) :=
  use (streamF b sql params)

/-- Claim C9: attaching the tracing span leaves result semantics unchanged —
`query` returns exactly what the span-free operation returns (rows, error,
state), and consuming the spanned `stream` observes exactly what consuming
the span-free stream observes, for every demand. -/
theorem c9_span_preserves_semantics {σ : Type} (b : Backend σ)
    (sql : String) (params : List Value) (s : σ) (k : Nat) :
    (query b sql params s).2 = (queryNoSpan b sql params s).2 ∧
    (runStream (stream b sql params) s k).2 =
      (runStream (streamNoSpan b sql params) s k).2 := by
  constructor
  · rfl
  · simp [runStream, stream, withSpan, streamNoSpan]

/-- The state transition a `use` operation performs on the connection: on
success the updated state, on a caught fault the state is left as it was. -/
def useTrans {σ α : Type} (f : σ → Except Fault (α × σ)) : σ → σ :=
  fun s =>
    match (use f s).2 with
    | .ok (_, s2) => s2
    | .error _ => s

/-- A primitive step of a fiber: `sync` runs one synchronous effect with no
suspension point inside it (`Effect.try` compiles to one such step), while
`asyncOp` has a suspension point between starting the operation and
finishing it (as `Effect.tryPromise` would). -/
inductive Prim (σ : Type) where
  | sync (f : σ → σ)
  | asyncOp (start : σ → σ) (finish : σ → σ)

/-- Run a fiber's primitives with an interruption budget: the fiber observes
cancellation at suspension points — between primitives always, and inside an
`asyncOp` between its two halves — but never inside a `sync` primitive.
`fuel` counts the suspension points passed before cancellation arrives. -/
def runPrims {σ : Type} : List (Prim σ) → Nat → σ → σ
  | [], _, s => s
  | _ :: _, 0, s => s
  | .sync f :: rest, n + 1, s => runPrims rest n (f s)
  | .asyncOp start _ :: _, 1, s => start s
  | .asyncOp start finish :: rest, n + 2, s =>
      runPrims rest (n + 1) (finish (start s))

/-- Claim C10: a task built only from `use` operations observes cancellation
only between operations — whatever the interruption budget, the state it
leaves behind is a fold of some prefix of complete `use` transitions; no
operation is ever abandoned midway, because `Effect.try` is one synchronous
primitive with no internal suspension point. -/
theorem c10_use_runs_to_completion {σ α : Type}
    (fs : List (σ → Except Fault (α × σ))) (fuel : Nat) (s : σ) :
    runPrims (fs.map fun f => Prim.sync (useTrans f)) fuel s =
      List.foldl (fun t f => useTrans f t) s (fs.take fuel) := by
  induction fs generalizing fuel s with
  | nil => cases fuel <;> rfl
  | cons f fs ih =>
      cases fuel with
      | zero => rfl
      | succ n => simp [runPrims, List.take_succ_cons, ih]

/-- Model of the effect library's `Cause` tree for a failed exit. -/
inductive Cause where
  | empty
  | fail (error : Fault)
  | die (defect : Fault)
  | interrupt (fiberId : Nat)
  | sequential (left right : Cause)
  | parallel (left right : Cause)
deriving DecidableEq, Repr

/-- `Cause.isInterruptedOnly`: the cause holds no `fail` and no `die`; only
interruptions (and empty branches). -/
def Cause.isInterruptedOnly : Cause → Bool
  | .empty => true
  | .fail _ => false
  | .die _ => false
  | .interrupt _ => true
  | .sequential l r => l.isInterruptedOnly && r.isInterruptedOnly
  | .parallel l r => l.isInterruptedOnly && r.isInterruptedOnly

/-- Model of the effect library's `Exit`: a terminal fiber outcome — success
with a value, or failure with a cause (typed failure, defect, or
interruption). -/
inductive Exit (α : Type) where
  | success (value : α)
  | failure (cause : Cause)
deriving DecidableEq, Repr

/-- `Exit.isSuccess` from the source. -/
def Exit.isSuccess {α : Type} : Exit α → Bool
  | .success _ => true
  | .failure _ => false

/-- State of the Express response channel as the hook observes it, with
histories of every status write and every end call so that exactly-once
properties are expressible. -/
structure Res where
  headersSent : Bool
  writableEnded : Bool
  statusWrites : List Nat
  endCalls : Nat
deriving DecidableEq, Repr

/-- `res.writeHead(status)`: records the status and marks headers sent. -/
def Res.writeHead (res : Res) (status : Nat) : Res :=
  { res with headersSent := true, statusWrites := res.statusWrites ++ [status] }

/-- `res.end()`: ends the response stream. -/
def Res.endStream (res : Res) : Res :=
  { res with writableEnded := true, endCalls := res.endCalls + 1 }

/-- A response channel on which nothing has been written yet. -/
def freshRes : Res where
  headersSent := false
  writableEnded := false
  statusWrites := []
  endCalls := 0

/-- One emitted log entry with its annotations. -/
structure LogEntry where
  level : String
  message : String
  cause : Cause
  method : String
  path : String
  headers : List (String × String)
deriving DecidableEq, Repr

/-- The completion hook `addRoute` installs with `Effect.onExit`: if no
headers were sent, write status 204 on a success exit and 500 on any other
exit; if the stream is not yet ended, end it; and if the exit is a failure
whose cause is not interruption-only, emit one warning log annotated with
the method, path, and request headers. -/
def onExitHook (method path : String) (headers : List (String × String))
    (exit : Exit Unit) (res : Res) : Res × List LogEntry :=
  let res1 := if !res.headersSent then
      res.writeHead (if exit.isSuccess then 204 else 500)
    else res
  let res2 := if !res1.writableEnded then res1.endStream else res1
  let logs :=
    match exit with
    | .failure c =>
        if c.isInterruptedOnly then []
        else [{ level := "warning", message := "Unhandled error in route",
                cause := c, method := method, path := path,
                headers := headers }]
    | .success _ => []
  (res2, logs)

/-- Claim C4: a failed exit whose cause is interruption-only produces no log
entry from the hook; a failed exit from any other cause produces exactly one
warning-level entry, annotated with the request's method, path, and
headers. -/
theorem c4_warning_iff_noninterrupted_failure (method path : String)
    (headers : List (String × String)) (c : Cause) (res : Res) :
    (c.isInterruptedOnly = true →
      (onExitHook method path headers (.failure c) res).2 = []) ∧
    (c.isInterruptedOnly = false →
      (onExitHook method path headers (.failure c) res).2 =
        [{ level := "warning", message := "Unhandled error in route",
           cause := c, method := method, path := path,
           headers := headers }]) := by
  constructor <;> intro h <;> simp [onExitHook, h]

/-- Witness for C4: an interruption-only failure logs nothing; a defect
failure logs one annotated warning. -/
theorem c4_warning_iff_noninterrupted_failure_witness :
    (onExitHook "get" "/users" [("host", "localhost")]
      (.failure (.interrupt 7)) freshRes).2 = [] ∧
    (onExitHook "get" "/users" [("host", "localhost")]
      (.failure (.die "boom")) freshRes).2 =
      [{ level := "warning", message := "Unhandled error in route",
         cause := .die "boom", method := "get", path := "/users",
         headers := [("host", "localhost")] }] := by
  exact ⟨(c4_warning_iff_noninterrupted_failure "get" "/users"
      [("host", "localhost")] (.interrupt 7) freshRes).1 rfl,
    (c4_warning_iff_noninterrupted_failure "get" "/users"
      [("host", "localhost")] (.die "boom") freshRes).2 rfl⟩

/-- Claim C5 counterexample: on a cancellation outcome (an exit whose cause
is a pure interruption) with no status yet sent, the hook writes status 500
to the channel — the claim says cancellation writes no status. -/
theorem c5_counterexample :
    ((onExitHook "get" "/users" [] (.failure (.interrupt 0)) freshRes).1).statusWrites
      = [500] := by
  rfl

/-- Claim C5 (amended): when no status has been sent, the hook writes 204 on
a success outcome and 500 on every other outcome — failure and cancellation
alike; when a status was already sent it writes none; and it ends the
response stream exactly when the stream is not already ended. -/
theorem c5_hook_status_and_end (method path : String)
    (headers : List (String × String)) (exit : Exit Unit) (res : Res) :
    (res.headersSent = false → exit.isSuccess = true →
      ((onExitHook method path headers exit res).1).statusWrites =
        res.statusWrites ++ [204]) ∧
    (res.headersSent = false → exit.isSuccess = false →
      ((onExitHook method path headers exit res).1).statusWrites =
        res.statusWrites ++ [500]) ∧
    (res.headersSent = true →
      ((onExitHook method path headers exit res).1).statusWrites =
        res.statusWrites) ∧
    (res.writableEnded = false →
      ((onExitHook method path headers exit res).1).writableEnded = true ∧
      ((onExitHook method path headers exit res).1).endCalls =
        res.endCalls + 1) ∧
    (res.writableEnded = true →
      ((onExitHook method path headers exit res).1).endCalls = res.endCalls) := by
  refine ⟨fun h hs => ?_, fun h hs => ?_, fun h => ?_, fun h => ?_, fun h => ?_⟩ <;>
    cases hw : res.writableEnded <;> cases hh : res.headersSent <;>
      simp_all [onExitHook, Res.writeHead, Res.endStream]

/-- Witness for C5 (amended): on a fresh channel, success writes 204,
cancellation writes 500, and both end the stream once. -/
theorem c5_hook_status_and_end_witness :
    ((onExitHook "get" "/users" [] (.success ()) freshRes).1).statusWrites = [204] ∧
    ((onExitHook "get" "/users" [] (.failure (.interrupt 0)) freshRes).1).statusWrites = [500] ∧
    ((onExitHook "get" "/users" [] (.success ()) freshRes).1).endCalls = 1 := by
  refine ⟨?_, ?_, ?_⟩
  · have h := (c5_hook_status_and_end "get" "/users" [] (.success ()) freshRes).1
      rfl rfl
    simpa [freshRes] using h
  · have h := (c5_hook_status_and_end "get" "/users" []
      (.failure (.interrupt 0)) freshRes).2.1 rfl rfl
    simpa [freshRes] using h
  · have h := (c5_hook_status_and_end "get" "/users" [] (.success ())
      freshRes).2.2.2.1 rfl
    simpa [freshRes] using h.2

/-- Status of the spawned request fiber: still running, or terminated with
its exit. The Effect fiber runtime delivers a fiber's exit exactly once;
`Effect.onExit` runs on the single transition from running to done. -/
inductive FiberStatus where
  | running
  | done (exit : Exit Unit)
deriving DecidableEq, Repr

/-- Per-request state of the Request Adapter: the fiber spawned by `runFork`,
the Express response channel, the logs emitted so far, a count of completion
hook executions, and whether `unsafeInterruptAsFork` has been requested by
the `close` listener. -/
structure ReqState where
  fiber : FiberStatus
  res : Res
  logs : List LogEntry
  hookRuns : Nat
  interruptRequested : Bool
deriving DecidableEq, Repr

/-- An atomic event observed at the request: the fiber reaches its terminal
exit (success, typed failure, or interruption), or the transport's `close`
signal fires. -/
inductive ReqEvent where
  | finish (exit : Exit Unit)
  | disconnect
deriving DecidableEq, Repr

/-- One step of the per-request machine. A `close` event only requests
interruption (`unsafeInterruptAsFork` returns immediately and is a no-op on
a terminal fiber). A `finish` event on a running fiber is the single
terminal transition: the `Effect.onExit` hook runs, finalizing the response
and logging. A `finish` on an already-done fiber cannot occur in the
runtime and is modelled as a no-op. -/
def reqStep (method path : String) (headers : List (String × String)) :
    ReqState → ReqEvent → ReqState
  | s, .disconnect => { s with interruptRequested := true }
  | s, .finish e =>
      match s.fiber with
      | .done _ => s
      | .running =>
          { fiber := .done e,
            res := (onExitHook method path headers e s.res).1,
            logs := s.logs ++ (onExitHook method path headers e s.res).2,
            hookRuns := s.hookRuns + 1,
            interruptRequested := s.interruptRequested }

/-- Run the per-request machine over a sequence of interleaved events. -/
def runReq (method path : String) (headers : List (String × String))
    (s : ReqState) (events : List ReqEvent) : ReqState :=
  events.foldl (reqStep method path headers) s

/-- Disconnect events alone never touch the fiber, the response channel, the
logs, or the hook count. -/
theorem runReq_disconnects (method path : String)
    (headers : List (String × String)) (pre : List ReqEvent) (s : ReqState)
    (h : ∀ ev ∈ pre, ev = .disconnect) :
    (runReq method path headers s pre).fiber = s.fiber ∧
    (runReq method path headers s pre).res = s.res ∧
    (runReq method path headers s pre).logs = s.logs ∧
    (runReq method path headers s pre).hookRuns = s.hookRuns := by
  induction pre generalizing s with
  | nil => exact ⟨rfl, rfl, rfl, rfl⟩
  | cons ev pre ih =>
      have hev : ev = .disconnect := h ev (List.mem_cons_self ev pre)
      subst hev
      have := ih { s with interruptRequested := true }
        (fun e he => h e (List.mem_cons_of_mem _ he))
      simpa [runReq, reqStep] using this

/-- Finishing on a running fiber applies the completion hook once. -/
theorem reqStep_finish_running (method path : String)
    (headers : List (String × String)) (s : ReqState) (e : Exit Unit)
    (h : s.fiber = .running) :
    reqStep method path headers s (.finish e) =
      { fiber := .done e,
        res := (onExitHook method path headers e s.res).1,
        logs := s.logs ++ (onExitHook method path headers e s.res).2,
        hookRuns := s.hookRuns + 1,
        interruptRequested := s.interruptRequested } := by
  simp [reqStep, h]

/-- Once the fiber is done, no later event changes the response channel, the
logs, the hook count, or the fiber. -/
theorem runReq_after_done (method path : String)
    (headers : List (String × String)) (events : List ReqEvent)
    (s : ReqState) (e : Exit Unit) (h : s.fiber = .done e) :
    (runReq method path headers s events).fiber = s.fiber ∧
    (runReq method path headers s events).res = s.res ∧
    (runReq method path headers s events).logs = s.logs ∧
    (runReq method path headers s events).hookRuns = s.hookRuns := by
  induction events generalizing s with
  | nil => exact ⟨rfl, rfl, rfl, rfl⟩
  | cons ev events ih =>
      cases ev with
      | disconnect =>
          have := ih { s with interruptRequested := true } h
          simpa [runReq, reqStep] using this
      | finish e2 =>
          have hstep : reqStep method path headers s (.finish e2) = s := by
            simp [reqStep, h]
          have := ih s h
          simpa [runReq, hstep] using this

/-- Claim C1: for every terminal outcome of the spawned request task and
every interleaving of client-disconnect signals — any number before the
terminal transition and any events after it — the completion hook runs
exactly once, the finalize action takes effect exactly once (the response
channel is exactly one hook application to its initial state, so on a fresh
channel: one status write and one end), the logs are emitted exactly once,
and the fiber settles on that terminal exit. -/
theorem c1_hook_and_finalize_exactly_once (method path : String)
    (headers : List (String × String)) (r0 : Res) (pre post : List ReqEvent)
    (e : Exit Unit) (hpre : ∀ ev ∈ pre, ev = .disconnect) :
    (runReq method path headers ⟨.running, r0, [], 0, false⟩
        (pre ++ .finish e :: post)).hookRuns = 1 ∧
    (runReq method path headers ⟨.running, r0, [], 0, false⟩
        (pre ++ .finish e :: post)).res = (onExitHook method path headers e r0).1 ∧
    (runReq method path headers ⟨.running, r0, [], 0, false⟩
        (pre ++ .finish e :: post)).logs = (onExitHook method path headers e r0).2 ∧
    (runReq method path headers ⟨.running, r0, [], 0, false⟩
        (pre ++ .finish e :: post)).fiber = .done e := by
  obtain ⟨hf, hr, hl, hh⟩ := runReq_disconnects method path headers pre
    ⟨.running, r0, [], 0, false⟩ hpre
  have hsplit : runReq method path headers ⟨.running, r0, [], 0, false⟩
      (pre ++ .finish e :: post) =
      runReq method path headers
        (reqStep method path headers
          (runReq method path headers ⟨.running, r0, [], 0, false⟩ pre)
          (.finish e)) post := by
    simp [runReq, List.foldl_append]
  have hstep := reqStep_finish_running method path headers
    (runReq method path headers ⟨.running, r0, [], 0, false⟩ pre) e (by rw [hf])
  obtain ⟨df, dr, dl, dh⟩ := runReq_after_done method path headers post
    (reqStep method path headers
      (runReq method path headers ⟨.running, r0, [], 0, false⟩ pre) (.finish e))
    e (by rw [hstep])
  rw [hsplit]
  rw [dh, dr, dl, df, hstep]
  simp [hr, hl, hh]

/-- Witness for C1: a disconnect racing the terminal interruption exit, with
a late disconnect and a stray late finish, still yields one hook run, one
500 write, one end, no logs (interruption only), and the first exit. -/
theorem c1_hook_and_finalize_exactly_once_witness :
    (runReq "get" "/users" [("host", "localhost")]
        ⟨.running, freshRes, [], 0, false⟩
        [.disconnect, .finish (.failure (.interrupt 0)), .disconnect,
          .finish (.success ())]).hookRuns = 1 ∧
    (runReq "get" "/users" [("host", "localhost")]
        ⟨.running, freshRes, [], 0, false⟩
        [.disconnect, .finish (.failure (.interrupt 0)), .disconnect,
          .finish (.success ())]).res =
      { headersSent := true, writableEnded := true, statusWrites := [500],
        endCalls := 1 } ∧
    (runReq "get" "/users" [("host", "localhost")]
        ⟨.running, freshRes, [], 0, false⟩
        [.disconnect, .finish (.failure (.interrupt 0)), .disconnect,
          .finish (.success ())]).logs = [] := by
  have h := c1_hook_and_finalize_exactly_once "get" "/users"
    [("host", "localhost")] freshRes [.disconnect]
    [.disconnect, .finish (.success ())] (.failure (.interrupt 0))
    (fun ev hev => by simpa using hev)
  refine ⟨by simpa using h.1, ?_, ?_⟩
  · have := h.2.1
    simp only [List.singleton_append] at this
    rw [this]
    rfl
  · have := h.2.2.1
    simp only [List.singleton_append] at this
    rw [this]
    rfl

/-- Status of a task registered in the supervisor's FiberSet. -/
inductive TaskStatus where
  | running
  | completed
  | failed (c : Cause)
  | cancelled
deriving DecidableEq, Repr

/-- A task status is terminal when the task is no longer running. -/
def TaskStatus.isTerminal : TaskStatus → Bool
  | .running => false
  | _ => true

/-- Modelled from the spec: the effect of scope shutdown on one registered
task — `FiberSet`'s internals are library code not under `src/`. Closing the
scope the set was extended onto interrupts every registered fiber and awaits
its termination, so a task still running when shutdown begins resolves with
the cancellation outcome; a task already terminal keeps its outcome. -/
def shutdownTask : TaskStatus → TaskStatus
  | .running => .cancelled
  | t => t

/-- Modelled from the spec: the registry state once scope shutdown has
returned — every registered task has been interrupted and awaited. -/
def shutdownRegistry (reg : List TaskStatus) : List TaskStatus :=
  reg.map shutdownTask

/-- Claim C7: when the supervising scope ends, every registered task has
reached a terminal outcome by the time shutdown returns (no task survives),
no registered task is dropped, and if none of the K registered tasks ever
completes on its own, all K reach the cancelled outcome. -/
theorem c7_shutdown_no_orphans (reg : List TaskStatus) :
    (∀ t ∈ shutdownRegistry reg, t.isTerminal = true) ∧
    (shutdownRegistry reg).length = reg.length ∧
    ((∀ t ∈ reg, t = .running) →
      shutdownRegistry reg = List.replicate reg.length .cancelled) := by
  refine ⟨?_, by simp [shutdownRegistry], ?_⟩
  · intro t ht
    simp only [shutdownRegistry, List.mem_map] at ht
    obtain ⟨u, _, rfl⟩ := ht
    cases u <;> rfl
  · induction reg with
    | nil => intro _; rfl
    | cons t reg ih =>
        intro hall
        have ht : t = .running := hall t (List.mem_cons_self t reg)
        subst ht
        have := ih (fun u hu => hall u (List.mem_cons_of_mem _ hu))
        simpa [shutdownRegistry, shutdownTask, List.replicate_succ] using this

/-- Witness for C7: shutting down a registry of three tasks that never
complete on their own cancels all three, and the cancelled outcome is
terminal. -/
theorem c7_shutdown_no_orphans_witness :
    shutdownRegistry [.running, .running, .running] =
      [.cancelled, .cancelled, .cancelled] ∧
    TaskStatus.isTerminal .cancelled = true := by
  have h := c7_shutdown_no_orphans [.running, .running, .running]
  constructor
  · have := h.2.2 (fun t ht => by
      simp only [List.mem_cons, List.not_mem_nil, or_false] at ht
      rcases ht with rfl | rfl | rfl <;> rfl)
    simpa [List.replicate] using this
  · exact h.1 .cancelled (by
      have := h.2.2 (fun t ht => by
        simp only [List.mem_cons, List.not_mem_nil, or_false] at ht
        rcases ht with rfl | rfl | rfl <;> rfl)
      rw [this]
      simp [List.replicate])

/-- The owning scope of a scoped service: the release actions registered so
far, most recent first. -/
structure ScopeSt where
  finalizers : List String
deriving DecidableEq, Repr

/-- Modelled from the spec: `Effect.acquireRelease` — library code not under
`src/`. Acquisition runs uninterruptibly; exactly when it succeeds, the
release action is registered on the owning scope's finalizers. -/
def acquireRelease {α : Type} (acquire : Except Fault α)
    (releaseLabel : String) (sc : ScopeSt) : Except Fault (α × ScopeSt) :=
  match acquire with
  | .error c => .error c
  | .ok a => .ok (a, ⟨releaseLabel :: sc.finalizers⟩)

/-- Modelled from the spec: closing the owning scope runs each registered
finalizer exactly once; the returned list is the sequence of release actions
executed. -/
def closeScope (sc : ScopeSt) : List String := sc.finalizers

/-- The `SqlClient` scoped construction: acquire the connection registering
the release action `db.close`, then run the rest of the construction (table
setup, which may throw) with the acquired handle; the owning scope is closed
when it ends, whatever the outcome. Returns the construction outcome and
the release actions that were executed. -/
def sqlClientLifecycle {δ α : Type} (acquire : Except Fault δ)
    (rest : δ → Except Fault α) : Except Fault α × List String :=
  match acquireRelease acquire "db.close" ⟨[]⟩ with
  | .error c => (.error c, closeScope ⟨[]⟩)
  | .ok (db, sc) => (rest db, closeScope sc)

/-- Claim C8: for every successful acquisition of the connection, the
release action runs exactly once when the owning scope ends, on every exit
path — also when the construction fails after acquisition. -/
theorem c8_release_exactly_once {δ α : Type} (acquire : Except Fault δ)
    (rest : δ → Except Fault α) (db : δ) (hacq : acquire = .ok db) :
    ((sqlClientLifecycle acquire rest).2).count "db.close" = 1 ∧
    (sqlClientLifecycle acquire rest).2 = ["db.close"] ∧
    (sqlClientLifecycle acquire rest).1 = rest db := by
  subst hacq
  refine ⟨?_, rfl, rfl⟩
  rfl

/-- Witness for C8: the release action runs exactly once both when the
construction after acquisition succeeds and when it throws. -/
theorem c8_release_exactly_once_witness :
    (sqlClientLifecycle (.ok 0) (fun n : Nat => (.ok n : Except Fault Nat))).2 =
      ["db.close"] ∧
    (sqlClientLifecycle (.ok 0)
        (fun _ : Nat => (.error "table setup failed" : Except Fault Nat))).2 =
      ["db.close"] := by
  exact ⟨(c8_release_exactly_once (.ok 0) _ 0 rfl).2.1,
    (c8_release_exactly_once (.ok 0) _ 0 rfl).2.1⟩

end Spec2Proof
